import Mathlib

/-!
Shallow embedding of the micropython-wifi-manager repository (`wifi.py`).

Python byte strings and text strings are modelled as `List Char` (the inputs
relevant to the claims are ASCII, where bytes and characters coincide); raw
DNS datagrams are modelled as `List Nat` (one entry per octet).  Fallible
Python operations (exceptions) are modelled with `Option`.
-/

/-- Whitespace set stripped by Python's `str.strip()` (ASCII part). -/
def pyIsSpace (c : Char) : Bool :=
  c = ' ' || c = '\t' || c = '\n' || c = '\r' || c = '\x0b' || c = '\x0c'

/-- Python `str.strip()`: drop whitespace from both ends. -/
def pyStrip (l : List Char) : List Char :=
  ((l.dropWhile pyIsSpace).reverse.dropWhile pyIsSpace).reverse

/-- Python `str.split(sep)` for a single-character separator `sep`. -/
def pySplitChar (sep : Char) : List Char → List (List Char)
  | [] => [[]]
  | c :: rest =>
    if c = sep then [] :: pySplitChar sep rest
    else
      match pySplitChar sep rest with
      | [] => [[c]]
      | l :: ls => (c :: l) :: ls

/-- Helper for `pyReadlines`: `acc` is the current line so far, reversed. -/
def readlinesAux : List Char → List Char → List (List Char)
  | acc, [] => if acc = [] then [] else [acc.reverse]
  | acc, c :: rest =>
    if c = '\n' then (c :: acc).reverse :: readlinesAux [] rest
    else readlinesAux (c :: acc) rest

/-- Python `file.readlines()`: split after each newline, keeping it. -/
def pyReadlines (cs : List Char) : List (List Char) :=
  readlinesAux [] cs

/-- Python `str.lower()` (ASCII). -/
def pyLower (l : List Char) : List Char :=
  l.map Char.toLower

/-- Value of a nonempty all-digit string, `none` otherwise. -/
def digitsToNat? (l : List Char) : Option Nat :=
  if l = [] then none
  else if l.all Char.isDigit then
    some (l.foldl (fun a c => a * 10 + (c.toNat - 48)) 0)
  else none

/-- Python `int(str)`: optional surrounding whitespace, optional sign, digits;
raises (`none`) otherwise. -/
def pyInt (s : List Char) : Option Int :=
  match pyStrip s with
  | '+' :: ds => (digitsToNat? ds).map (fun n => (n : Int))
  | '-' :: ds => (digitsToNat? ds).map (fun n => -(n : Int))
  | ds => (digitsToNat? ds).map (fun n => (n : Int))

/-- Python `a.startswith(p)`. -/
def pyStartsWith (s p : List Char) : Bool :=
  p.isPrefixOf s

/-! ## Credential store (`WifiManager._read_profiles` / `_write_profiles`) -/

/-- Python dict insertion `d[k] = v` on an association list: an existing key
keeps its position and gets the new value, a fresh key is appended. -/
def setPair : List (List Char × List Char) → List Char → List Char →
    List (List Char × List Char)
  | [], k, v => [(k, v)]
  | (k', v') :: rest, k, v =>
    if k' = k then (k, v) :: rest else (k', v') :: setPair rest k v

/-- Association-list lookup, modelling Python dict indexing/membership. -/
def assocLookup : List (List Char × List Char) → List Char → Option (List Char)
  | [], _ => none
  | (k', v') :: rest, k => if k' = k then some v' else assocLookup rest k

/-- Loop body of `_read_profiles` (lines 69-72 of `wifi.py`): for each line,
`ssid, password = line.strip().split(';')` — the destructuring raises
(`none`) unless the split yields exactly two parts — then
`profiles[ssid] = password`. -/
def readProfilesLines : List (List Char) → List (List Char × List Char) →
    Option (List (List Char × List Char))
  | [], acc => some acc
  | l :: ls, acc =>
    match pySplitChar ';' (pyStrip l) with
    | [a, b] => readProfilesLines ls (setPair acc a b)
    | _ => none

/-- Embedding of `WifiManager._read_profiles` (lines 61-73).  The argument is
the backing file's contents, `none` meaning `open` raised `OSError` (file
absent/unreadable), which the source converts to the empty mapping.  A
result of `none` models an uncaught exception escaping `_read_profiles`. -/
def readProfiles : Option (List Char) → Option (List (List Char × List Char))
  | none => some []
  | some content => readProfilesLines (pyReadlines content) []

/-- Embedding of `WifiManager._write_profiles` (lines 75-79): writes
`f'{ssid};{password}\n'` for each profile, in mapping-iteration order. -/
def writeProfiles : List (List Char × List Char) → List Char
  | [] => []
  | (n, s) :: rest => n ++ ';' :: (s ++ '\n' :: writeProfiles rest)

/-! ## Connection state machine (`WifiManager._wifi_connect` / `connect`) -/

/-- Observable trace of one `_wifi_connect` call: its boolean result, how many
times `wlan_sta.isconnected()` was polled, how many `asyncio.sleep(0.1)`
suspensions (100 ms each) were taken, and how many `wlan_sta.disconnect()`
calls were issued. -/
structure AttemptTrace where
  result : Bool
  polls : Nat
  sleeps : Nat
  disconnects : Nat
deriving DecidableEq, Repr

/-- Embedding of the `for _ in range(100)` loop of `_wifi_connect`
(lines 50-59): `isconnected i` is the radio stack's answer to the `i`-th poll.
When the loop budget is exhausted the source disconnects and returns
`False`. -/
def wifiConnectLoop (isconnected : Nat → Bool) : Nat → Nat → AttemptTrace
  | _, 0 => ⟨false, 0, 0, 1⟩
  | i, fuel + 1 =>
    if isconnected i then ⟨true, 1, 0, 0⟩
    else
      let r := wifiConnectLoop isconnected (i + 1) fuel
      ⟨r.result, r.polls + 1, r.sleeps + 1, r.disconnects⟩

/-- Embedding of `WifiManager._wifi_connect` (lines 47-59) for a given radio
behaviour: the initial `wlan_sta.connect(ssid, password)` is fire-and-forget,
then the 100-iteration poll loop runs. -/
def wifiConnect (isconnected : Nat → Bool) : AttemptTrace :=
  wifiConnectLoop isconnected 0 100

/-- Loop of `connect` over the stored profiles (lines 42-45): attempt each in
order, stop at the first success.  Returns the result together with the list
of (ssid, password) pairs actually attempted, in order. -/
def connectAttemptLoop (attempt : List Char → List Char → Bool) :
    List (List Char × List Char) → Bool × List (List Char × List Char)
  | [] => (false, [])
  | p :: rest =>
    if attempt p.1 p.2 then (true, [p])
    else
      let r := connectAttemptLoop attempt rest
      (r.1, p :: r.2)

/-- Embedding of `WifiManager.connect` (lines 32-45), with the profile store
already loaded (`profiles = self._read_profiles()`) and a single connection
attempt abstracted by the oracle `attempt` (the outcome of
`_wifi_connect ssid password`).  `ssid`/`password` are the constructor
defaults held in `self.ssid`/`self.password`.  Returns the result and the
ordered list of attempted (ssid, password) pairs. -/
def connect (profiles : List (List Char × List Char)) (ssid password : List Char)
    (attempt : List Char → List Char → Bool) :
    Bool × List (List Char × List Char) :=
  match profiles with
  | [] => (attempt ssid password, [(ssid, password)])
  | p :: rest => connectAttemptLoop attempt (p :: rest)

/-! ## DNS responder (`DNSQuery`, `run_dns_server`) -/

/-- Python byte indexing `data[i]`: `none` models `IndexError`. -/
def getByte (data : List Nat) (i : Nat) : Option Nat :=
  data[i]?

/-- Python slicing `data[a:b]` (clamped at both ends, never raises). -/
def pySlice (data : List Nat) (a b : Nat) : List Nat :=
  (data.take b).drop a

/-- Label-walking loop of `DNSQuery.__init__` (lines 358-362): starting at
offset `ini`, read a length byte `lon`; while it is nonzero, append the label
bytes `data[ini+1 : ini+lon+1]` followed by a dot (octet 46) and advance by
`lon + 1`.  An out-of-range read is an `IndexError` (`none`).  The loop is
given as fuel; since each iteration consumes a distinct in-range offset, any
fuel of at least `data.length + 1` is never exhausted. -/
def labelsAux (data : List Nat) : Nat → Nat → Option (List Nat)
  | _, 0 => none
  | ini, fuel + 1 =>
    match getByte data ini with
    | none => none
    | some lon =>
      if lon = 0 then some []
      else
        match labelsAux data (ini + lon + 1) fuel with
        | none => none
        | some rest => some (pySlice data (ini + 1) (ini + lon + 1) ++ 46 :: rest)

/-- Embedding of `DNSQuery.__init__` (lines 352-362): the parsed `domain`
field as a byte string (the source accumulates `label.decode('utf-8') + '.'`;
we keep the raw label bytes with 46 for the dot).  `tipo` is the opcode
`(data[2] >> 3) & 15`; only a standard query (opcode 0) is parsed, any other
opcode leaves `domain` empty.  `none` models an exception escaping the
constructor. -/
def dnsDomain (data : List Nat) : Option (List Nat) :=
  match getByte data 2 with
  | none => none
  | some b2 =>
    if (b2 >>> 3) &&& 15 = 0 then labelsAux data 12 (data.length + 1)
    else some []

/-- Octet list of `bytes(map(int, ip.split('.')))` (line 371): every
dot-separated part must parse with `int()` and lie in the byte range 0-255,
else `int`/`bytes` raises (`none`). -/
def ipOctets : List (List Char) → Option (List Nat)
  | [] => some []
  | p :: ps =>
    match pyInt p with
    | none => none
    | some v =>
      if v < 0 ∨ 255 < v then none
      else (ipOctets ps).map (fun rest => v.toNat :: rest)

/-- Parse a dotted IPv4 string into its octets, as line 371 does. -/
def parseIp (ip : List Char) : Option (List Nat) :=
  ipOctets (pySplitChar '.' ip)

/-- Embedding of `DNSQuery.response` (lines 364-372).  The packet is built
only under `if self.domain:`; with an empty domain the trailing
`return packet` raises `UnboundLocalError` (`none`).  A datagram whose
constructor raised has no query object at all, also `none`. -/
def dnsResponse (data : List Nat) (ip : List Char) : Option (List Nat) :=
  match dnsDomain data with
  | none => none
  | some [] => none
  | some (_ :: _) =>
    match parseIp ip with
    | none => none
    | some octets =>
      some (data.take 2 ++ [129, 128] ++
        pySlice data 4 6 ++ pySlice data 4 6 ++ [0, 0, 0, 0] ++
        data.drop 12 ++ [192, 12] ++
        [0, 1, 0, 1, 0, 0, 0, 60, 0, 4] ++ octets)

/-- One iteration of `run_dns_server` (lines 335-347) for an inbound
datagram: `udps.sendto(dns_query.response(SERVER_IP), addr)` sends exactly
when parsing and response-building raise no exception (any exception is
caught by the surrounding `except` and nothing is sent). -/
def dnsServerStep (data : List Nat) (ip : List Char) : Option (List Nat) :=
  dnsResponse data ip

/-! ## HTTP portal handler (`WifiManager.handle_http_connection`) -/

/-- Drop an expected literal prefix, `none` when it is not there. -/
def stripLit : List Char → List Char → Option (List Char)
  | [], s => some s
  | _ :: _, [] => none
  | p :: ps, c :: cs => if c = p then stripLit ps cs else none

/-- Python `s.split(sep, 1)` restricted to success: split at the first
occurrence of the (nonempty) separator; `none` when the separator does not
occur, in which case the source's two-name destructuring raises
`ValueError`. -/
def splitOnce (sep : List Char) : List Char → Option (List Char × List Char)
  | [] => none
  | c :: rest =>
    match stripLit sep (c :: rest) with
    | some tail => some ([], tail)
    | none => (splitOnce sep rest).map (fun p => (c :: p.1, p.2))

/-- Header-line loop of `handle_http_connection` (lines 115-125): for each
line before the blank line, `header = line.decode().strip()`; if `':' in
header` then `key, value = header.split(': ', 1)` (raising `ValueError`,
modelled `none`, when `': '` does not occur) and
`headers[key.lower()] = value`; otherwise the line is ignored. -/
def parseHeaderLines : List (List Char) → List (List Char × List Char) →
    Option (List (List Char × List Char))
  | [], acc => some acc
  | l :: ls, acc =>
    let header := pyStrip l
    if ':' ∈ header then
      match splitOnce [':', ' '] header with
      | some (k, v) => parseHeaderLines ls (setPair acc (pyLower k) v)
      | none => none
    else parseHeaderLines ls acc

/-- Header mapping built from the raw header lines (lines 115-125). -/
def parseHeaders (lines : List (List Char)) :
    Option (List (List Char × List Char)) :=
  parseHeaderLines lines []

/-- Match of the pattern `id=([^&]*)&password=(.*)` anchored at the start of
`s` (MicroPython `ure` semantics, where `.` matches any character).  The
greedy class `[^&]*` cannot cross an `'&'`, so the only viable stop for it is
the first `'&'` after the literal `id=`; the literal `&password=` must follow
there, and `(.*)` takes the whole remainder — no further backtracking
exists for this pattern. -/
def matchIdPw (s : List Char) : Option (List Char × List Char) :=
  match stripLit ['i', 'd', '='] s with
  | none => none
  | some rest =>
    match stripLit ('&' :: "password=".data) (rest.dropWhile (fun c => c ≠ '&')) with
    | none => none
    | some g2 => some (rest.takeWhile (fun c => c ≠ '&'), g2)

/-- Embedding of `ure.search(r'id=([^&]*)&password=(.*)', post_str)`
(line 143): try the anchored match at each position left to right and return
the first (leftmost) match's two groups. -/
def searchIdPw : List Char → Option (List Char × List Char)
  | [] => matchIdPw []
  | c :: rest =>
    match matchIdPw (c :: rest) with
    | some r => some r
    | none => searchIdPw rest

/-- Status lines written by `handle_http_connection`, one constructor per
`awrite` site. -/
inductive HttpStatus where
  | badRequestNoLength
  | badRequestInvalid
  | internalError
  | redirectSuccess
  | okConnectFailed
  | okSuccessPage
  | okSelectionPage
deriving DecidableEq, Repr

/-- Numeric HTTP status code of each response. -/
def HttpStatus.code : HttpStatus → Nat
  | .badRequestNoLength => 400
  | .badRequestInvalid => 400
  | .internalError => 500
  | .redirectSuccess => 302
  | .okConnectFailed => 200
  | .okSuccessPage => 200
  | .okSelectionPage => 200

/-- Observable outcome of one `handle_http_connection` call: the responses
written in order, the number of body octets consumed from the stream after
the headers, the (ssid, password) pairs passed to `_wifi_connect`, the
resulting credential-file contents, whether `aclose` ran, whether the
`/success` branch scheduled the server close, and whether an uncaught
exception escaped the handler. -/
structure HttpOutcome where
  responses : List HttpStatus
  bodyRead : Nat
  attempts : List (List Char × List Char)
  fileAfter : Option (List Char)
  closed : Bool
  serverCloseScheduled : Bool
  crashed : Bool
deriving DecidableEq, Repr

/-- Stream read `reader.read(n)` on the remaining body octets: returns up to
`n` octets (everything for a negative `n`). -/
def streamRead (n : Int) (s : List Char) : List Char :=
  if n < 0 then s else s.take n.toNat

/-- Embedding of `WifiManager.handle_http_connection` (lines 104-179).
Inputs: the decoded request line, the raw header lines received before the
blank line, the remaining stream octets after the blank line (`body`), the
outcome oracle for `_wifi_connect`, and the credential-file contents
(`none` = absent).  Exceptions: a `ValueError` from header splitting
(line 124) and a `ValueError` from `int(headers['content-length'])`
(line 135) are raised outside any `try` and escape the handler
(`crashed = true`, nothing written, connection not closed); exceptions inside
the `try` of lines 137-166 — `readexactly(2)` hitting end-of-stream, or
`_read_profiles` raising on a malformed stored file — are converted to a 500
response, after which line 179 still closes the connection. -/
def handleHttp (requestLine : List Char) (headerLines : List (List Char))
    (body : List Char) (attempt : List Char → List Char → Bool)
    (file : Option (List Char)) : HttpOutcome :=
  match parseHeaders headerLines with
  | none => ⟨[], 0, [], file, false, false, true⟩
  | some headers =>
    if pyStartsWith requestLine "POST /configure".data then
      match assocLookup headers "content-length".data with
      | none => ⟨[.badRequestNoLength], 0, [], file, true, false, false⟩
      | some v =>
        match pyInt v with
        | none => ⟨[], 0, [], file, false, false, true⟩
        | some n =>
          if body.length < 2 then
            ⟨[.internalError], body.length, [], file, true, false, false⟩
          else
            let post := streamRead n (body.drop 2)
            let consumed := 2 + post.length
            match searchIdPw post with
            | none => ⟨[.badRequestInvalid], consumed, [], file, true, false, false⟩
            | some (ssid, pw) =>
              if attempt ssid pw then
                match readProfiles file with
                | none =>
                  ⟨[.internalError], consumed, [(ssid, pw)], file, true, false, false⟩
                | some ps =>
                  ⟨[.redirectSuccess], consumed, [(ssid, pw)],
                    some (writeProfiles (setPair ps ssid pw)), true, false, false⟩
              else
                ⟨[.okConnectFailed], consumed, [(ssid, pw)], file, true, false, false⟩
    else if pyStartsWith requestLine "GET /success".data then
      ⟨[.okSuccessPage], 0, [], file, true, true, false⟩
    else
      ⟨[.okSelectionPage], 0, [], file, true, false, false⟩

/-! ## Helper lemmas -/

theorem wifiConnectLoop_polls_le (p : Nat → Bool) :
    ∀ fuel i, (wifiConnectLoop p i fuel).polls ≤ fuel := by
  intro fuel
  induction fuel with
  | zero => intro i; simp [wifiConnectLoop]
  | succ n ih =>
    intro i
    cases hp : p i with
    | true => simp [wifiConnectLoop, hp]
    | false =>
      have := ih (i + 1)
      simp [wifiConnectLoop, hp]
      omega

theorem wifiConnectLoop_first_success (p : Nat → Bool) :
    ∀ fuel i k, k < fuel → p (i + k) = true → (∀ j, j < k → p (i + j) = false) →
      wifiConnectLoop p i fuel = ⟨true, k + 1, k, 0⟩ := by
  intro fuel
  induction fuel with
  | zero => intro i k hk; omega
  | succ n ih =>
    intro i k hk hpk hmin
    cases k with
    | zero =>
      simp only [Nat.add_zero] at hpk
      simp [wifiConnectLoop, hpk]
    | succ m =>
      have h0 : p i = false := by
        have := hmin 0 (Nat.succ_pos m)
        simpa using this
      have hrec : wifiConnectLoop p (i + 1) n = ⟨true, m + 1, m, 0⟩ := by
        apply ih
        · omega
        · have : i + 1 + m = i + (m + 1) := by omega
          rw [this]; exact hpk
        · intro j hj
          have : i + 1 + j = i + (j + 1) := by omega
          rw [this]; exact hmin (j + 1) (by omega)
      simp [wifiConnectLoop, h0, hrec]

theorem wifiConnectLoop_all_fail (p : Nat → Bool) :
    ∀ fuel i, (∀ j, j < fuel → p (i + j) = false) →
      wifiConnectLoop p i fuel = ⟨false, fuel, fuel, 1⟩ := by
  intro fuel
  induction fuel with
  | zero => intro i _; simp [wifiConnectLoop]
  | succ n ih =>
    intro i hall
    have h0 : p i = false := by simpa using hall 0 (Nat.succ_pos n)
    have hrec : wifiConnectLoop p (i + 1) n = ⟨false, n, n, 1⟩ := by
      apply ih
      intro j hj
      have : i + 1 + j = i + (j + 1) := by omega
      rw [this]; exact hall (j + 1) (by omega)
    simp [wifiConnectLoop, h0, hrec]

theorem connectAttemptLoop_eq (a : List Char → List Char → Bool) :
    ∀ ps : List (List Char × List Char),
      connectAttemptLoop a ps =
        (ps.any (fun p => a p.1 p.2),
         ps.take ((ps.takeWhile (fun p => !(a p.1 p.2))).length + 1)) := by
  intro ps
  induction ps with
  | nil => simp [connectAttemptLoop]
  | cons p rest ih =>
    by_cases h : a p.1 p.2
    · simp [connectAttemptLoop, h, List.takeWhile_cons]
    · simp only [connectAttemptLoop, h, if_neg, Bool.false_eq_true, not_false_iff, ih,
        List.any_cons, Bool.false_or, List.takeWhile_cons]
      simp [h]

/-! ## Claim theorems -/

/-- C3: a single `_wifi_connect` attempt returns after at most 100 polls of
`isconnected`, each failed poll followed by one fixed 100 ms suspension
(`asyncio.sleep(0.1)`): it returns `true` immediately at the first poll
reporting joined (after `k` failed polls it has made `k + 1` polls, slept
`k` times and issued no disconnect), and when all 100 polls report not
joined it issues exactly one `disconnect()` on the station interface and
returns `false`. -/
theorem wifi_connect_budget (isconnected : Nat → Bool) (k : Nat) :
    (wifiConnect isconnected).polls ≤ 100 ∧
    (k < 100 → isconnected k = true → (∀ j, j < k → isconnected j = false) →
      wifiConnect isconnected = ⟨true, k + 1, k, 0⟩) ∧
    ((∀ i, i < 100 → isconnected i = false) →
      wifiConnect isconnected = ⟨false, 100, 100, 1⟩) := by
  refine ⟨wifiConnectLoop_polls_le isconnected 100 0, ?_, ?_⟩
  · intro hk hpk hmin
    have := wifiConnectLoop_first_success isconnected 100 0 k hk (by simpa using hpk)
      (by intro j hj; simpa using hmin j hj)
    simpa [wifiConnect] using this
  · intro hall
    have := wifiConnectLoop_all_fail isconnected 100 0 (by intro j hj; simpa using hall j hj)
    simpa [wifiConnect] using this

/-- C3 witness: with a radio stack that joins at the third poll the attempt
returns `true` after 3 polls and 2 sleeps with no disconnect; with a radio
stack that never joins it returns `false` after exactly 100 polls and one
disconnect. -/
theorem wifi_connect_budget_witness :
    (wifiConnect (fun i => decide (2 ≤ i))).polls ≤ 100 ∧
    wifiConnect (fun i => decide (2 ≤ i)) = ⟨true, 3, 2, 0⟩ ∧
    wifiConnect (fun _ => false) = ⟨false, 100, 100, 1⟩ :=
  ⟨(wifi_connect_budget (fun i => decide (2 ≤ i)) 2).1,
   (wifi_connect_budget (fun i => decide (2 ≤ i)) 2).2.1 (by decide) (by decide)
     (by decide),
   (wifi_connect_budget (fun _ => false) 0).2.2 (fun i _ => rfl)⟩

/-- C2: with an empty stored-profile mapping, `connect` attempts exactly the
single default profile and returns that attempt's outcome; with a non-empty
mapping it attempts the stored profiles in store-iteration order, returning
`true` at the first success without attempting later profiles (the attempted
list is the stored list cut off just after the first success) and `false`
after all stored profiles fail — and the attempted list is a prefix of the
stored profiles, so the default profile is never attempted. -/
theorem connect_profile_order (profiles : List (List Char × List Char))
    (ssid password : List Char) (attempt : List Char → List Char → Bool) :
    (profiles = [] →
      connect profiles ssid password attempt =
        (attempt ssid password, [(ssid, password)])) ∧
    (profiles ≠ [] →
      (connect profiles ssid password attempt).1 =
          profiles.any (fun p => attempt p.1 p.2) ∧
      (connect profiles ssid password attempt).2 =
          profiles.take
            ((profiles.takeWhile (fun p => !(attempt p.1 p.2))).length + 1) ∧
      (connect profiles ssid password attempt).2 <+: profiles) := by
  constructor
  · intro h
    subst h
    rfl
  · intro h
    match profiles with
    | [] => exact absurd rfl h
    | p :: rest =>
      have heq := connectAttemptLoop_eq attempt (p :: rest)
      refine ⟨?_, ?_, ?_⟩
      · rw [show connect (p :: rest) ssid password attempt =
          connectAttemptLoop attempt (p :: rest) from rfl, heq]
      · rw [show connect (p :: rest) ssid password attempt =
          connectAttemptLoop attempt (p :: rest) from rfl, heq]
      · rw [show connect (p :: rest) ssid password attempt =
          connectAttemptLoop attempt (p :: rest) from rfl, heq]
        exact List.take_prefix _ _

/-- C2 witness: with the store `{"Home": "pw1"}` and default
`("ESP32", "password")`, an all-failing radio gives result `false` having
attempted only the stored profile, and with an empty store the default
profile alone is attempted. -/
theorem connect_profile_order_witness :
    ((connect [("Home".data, "pw1".data)] "ESP32".data "password".data
        (fun _ _ => false)).1 = false ∧
      (connect [("Home".data, "pw1".data)] "ESP32".data "password".data
        (fun _ _ => false)).2 <+: [("Home".data, "pw1".data)]) ∧
    connect [] "ESP32".data "password".data (fun _ _ => false) =
      (false, [("ESP32".data, "password".data)]) := by
  refine ⟨⟨?_, ?_⟩, ?_⟩
  · exact (connect_profile_order [("Home".data, "pw1".data)] "ESP32".data
      "password".data (fun _ _ => false)).2 (by decide) |>.1
  · exact (connect_profile_order [("Home".data, "pw1".data)] "ESP32".data
      "password".data (fun _ _ => false)).2 (by decide) |>.2.2
  · exact (connect_profile_order [] "ESP32".data "password".data
      (fun _ _ => false)).1 rfl

theorem pySplitChar_ne_nil (sep : Char) : ∀ l : List Char, pySplitChar sep l ≠ [] := by
  intro l
  induction l with
  | nil => simp [pySplitChar]
  | cons c rest ih =>
    by_cases h : c = sep
    · simp [pySplitChar, h]
    · simp only [pySplitChar, if_neg h]
      cases hs : pySplitChar sep rest with
      | nil => exact absurd hs ih
      | cons a ls => simp

theorem pySplitChar_length (sep : Char) :
    ∀ l : List Char, (pySplitChar sep l).length = l.count sep + 1 := by
  intro l
  induction l with
  | nil => simp [pySplitChar]
  | cons c rest ih =>
    by_cases h : c = sep
    · subst h
      simp [pySplitChar, ih, List.count_cons]
    · simp only [pySplitChar, if_neg h]
      cases hs : pySplitChar sep rest with
      | nil => exact absurd hs (pySplitChar_ne_nil sep rest)
      | cons a ls =>
        have : (a :: ls).length = rest.count sep + 1 := by rw [← hs]; exact ih
        simp only [List.length_cons] at this ⊢
        rw [List.count_cons]
        simp [h, this]

theorem count_dropWhile (p : Char → Bool) (a : Char) (ha : p a = false) :
    ∀ l : List Char, (l.dropWhile p).count a = l.count a := by
  intro l
  induction l with
  | nil => simp
  | cons c rest ih =>
    by_cases h : p c
    · have hca : c ≠ a := by intro he; rw [he, ha] at h; exact absurd h (by simp)
      simp only [List.dropWhile_cons, h, if_pos]
      rw [ih, List.count_cons]
      simp [hca]
    · simp [List.dropWhile_cons, h]

theorem count_pyStrip_semi (l : List Char) : (pyStrip l).count ';' = l.count ';' := by
  unfold pyStrip
  rw [List.count_reverse, count_dropWhile pyIsSpace ';' (by decide),
    List.count_reverse, count_dropWhile pyIsSpace ';' (by decide)]

theorem readProfilesLines_bad :
    ∀ (lines : List (List Char)) (acc : List (List Char × List Char)) (l : List Char),
      l ∈ lines → l.count ';' ≠ 1 → readProfilesLines lines acc = none := by
  intro lines
  induction lines with
  | nil => intro acc l h; simp at h
  | cons hd tl ih =>
    intro acc l hmem hcount
    rcases List.mem_cons.mp hmem with he | htl
    · subst he
      have hlen : (pySplitChar ';' (pyStrip l)).length ≠ 2 := by
        rw [pySplitChar_length, count_pyStrip_semi]
        omega
      rcases hs : pySplitChar ';' (pyStrip l) with _ | ⟨a, _ | ⟨b, _ | ⟨c, ls⟩⟩⟩
      · simp [readProfilesLines, hs]
      · simp [readProfilesLines, hs]
      · rw [hs] at hlen; simp at hlen
      · simp [readProfilesLines, hs]
    · cases hs : pySplitChar ';' (pyStrip hd) with
      | nil => simp [readProfilesLines, hs]
      | cons a ls =>
        match ls with
        | [] => simp [readProfilesLines, hs]
        | [b] => simp only [readProfilesLines, hs]; exact ih _ l htl hcount
        | b :: c :: ls => simp [readProfilesLines, hs]

/-- C10: `_read_profiles` returns a mapping only when every line of the
backing file splits on `';'` into exactly two parts: any line with zero or
more than one `';'` makes the two-name destructuring raise an uncaught
`ValueError` (`none`), while only absence/unreadability of the file
(`OSError` on `open`) is converted to the empty mapping. -/
theorem read_profiles_bad_line (content l : List Char)
    (h1 : l ∈ pyReadlines content) (h2 : l.count ';' ≠ 1) :
    readProfiles (some content) = none ∧ readProfiles none = some [] :=
  ⟨readProfilesLines_bad (pyReadlines content) [] l h1 h2, rfl⟩

/-- C10 witness: the one-line file `"ab\n"` (no `';'`) makes
`_read_profiles` raise, and a missing file yields the empty mapping. -/
theorem read_profiles_bad_line_witness :
    readProfiles (some "ab\n".data) = none ∧ readProfiles none = some [] :=
  read_profiles_bad_line "ab\n".data "ab\n".data (by decide) (by decide)

theorem readlinesAux_line (rest : List Char) :
    ∀ (l acc : List Char), '\n' ∉ l →
      readlinesAux acc (l ++ '\n' :: rest) =
        (acc.reverse ++ l ++ ['\n']) :: readlinesAux [] rest := by
  intro l
  induction l with
  | nil => intro acc _; simp [readlinesAux]
  | cons c l ih =>
    intro acc hna
    have hc : c ≠ '\n' := fun he => hna (he ▸ List.mem_cons_self c l)
    have hl : '\n' ∉ l := fun hm => hna (List.mem_cons_of_mem c hm)
    have hstep : readlinesAux acc ((c :: l) ++ '\n' :: rest) =
        readlinesAux (c :: acc) (l ++ '\n' :: rest) := by
      rw [List.cons_append]
      simp [readlinesAux, hc]
    rw [hstep, ih (c :: acc) hl]
    simp

theorem pyReadlines_writeProfiles :
    ∀ ps : List (List Char × List Char),
      (∀ p ∈ ps, '\n' ∉ p.1 ∧ '\n' ∉ p.2) →
      pyReadlines (writeProfiles ps) =
        ps.map (fun p => p.1 ++ ';' :: (p.2 ++ ['\n'])) := by
  intro ps
  induction ps with
  | nil => intro _; rfl
  | cons p rest ih =>
    intro hok
    obtain ⟨hn, hs⟩ := hok p (List.mem_cons_self p rest)
    have hline : '\n' ∉ p.1 ++ ';' :: p.2 := by
      intro hm
      rcases List.mem_append.mp hm with h | h
      · exact hn h
      · rcases List.mem_cons.mp h with h | h
        · exact absurd h.symm (by decide)
        · exact hs h
    have hshape : writeProfiles (p :: rest) =
        (p.1 ++ ';' :: p.2) ++ '\n' :: writeProfiles rest := by
      cases p with
      | mk n s => simp [writeProfiles]
    rw [show pyReadlines (writeProfiles (p :: rest)) =
        readlinesAux [] (writeProfiles (p :: rest)) from rfl, hshape,
      readlinesAux_line (writeProfiles rest) (p.1 ++ ';' :: p.2) [] hline]
    rw [show readlinesAux [] (writeProfiles rest) = pyReadlines (writeProfiles rest)
        from rfl, ih (fun q hq => hok q (List.mem_cons_of_mem p hq))]
    simp

theorem dropWhile_head_not (p : Char → Bool) :
    ∀ l : List Char, (∀ c, l.head? = some c → p c = false) →
      l.dropWhile p = l := by
  intro l hh
  cases l with
  | nil => rfl
  | cons c rest =>
    have := hh c rfl
    simp [List.dropWhile_cons, this]

theorem pyStrip_record (n s : List Char)
    (hn : ∀ c, n.head? = some c → pyIsSpace c = false)
    (hs : ∀ c, s.getLast? = some c → pyIsSpace c = false) :
    pyStrip (n ++ ';' :: (s ++ ['\n'])) = n ++ ';' :: s := by
  unfold pyStrip
  have h1 : (n ++ ';' :: (s ++ ['\n'])).dropWhile pyIsSpace =
      n ++ ';' :: (s ++ ['\n']) := by
    apply dropWhile_head_not
    intro c hc
    cases n with
    | nil =>
      simp at hc
      rw [← hc]
      decide
    | cons a m =>
      simp at hc
      exact hn c (by simp [hc])
  rw [h1]
  have h2 : (n ++ ';' :: (s ++ ['\n'])).reverse =
      '\n' :: (s.reverse ++ ';' :: n.reverse) := by
    simp
  rw [h2]
  have h3 : ('\n' :: (s.reverse ++ ';' :: n.reverse)).dropWhile pyIsSpace =
      (s.reverse ++ ';' :: n.reverse).dropWhile pyIsSpace := by
    have hnl : pyIsSpace '\n' = true := by decide
    rw [List.dropWhile_cons, hnl]
    simp
  rw [h3]
  have h4 : (s.reverse ++ ';' :: n.reverse).dropWhile pyIsSpace =
      s.reverse ++ ';' :: n.reverse := by
    apply dropWhile_head_not
    intro c hc
    cases hsr : s.reverse with
    | nil =>
      rw [hsr] at hc
      simp at hc
      rw [← hc]
      decide
    | cons a m =>
      rw [hsr] at hc
      simp at hc
      apply hs c
      rw [← List.head?_reverse, hsr, hc]
      rfl
  rw [h4]
  simp

theorem pySplitChar_no_sep (sep : Char) :
    ∀ l : List Char, sep ∉ l → pySplitChar sep l = [l] := by
  intro l
  induction l with
  | nil => intro _; rfl
  | cons c rest ih =>
    intro hns
    have hc : c ≠ sep := fun he => hns (he ▸ List.mem_cons_self c rest)
    have hr : sep ∉ rest := fun hm => hns (List.mem_cons_of_mem c hm)
    simp [pySplitChar, hc, ih hr]

theorem pySplitChar_record (n s : List Char) (hn : ';' ∉ n) (hs : ';' ∉ s) :
    pySplitChar ';' (n ++ ';' :: s) = [n, s] := by
  induction n with
  | nil => simp [pySplitChar, pySplitChar_no_sep ';' s hs]
  | cons c m ih =>
    have hc : c ≠ ';' := fun he => hn (he ▸ List.mem_cons_self c m)
    have hm : ';' ∉ m := fun hmm => hn (List.mem_cons_of_mem c hmm)
    have hstep : pySplitChar ';' ((c :: m) ++ ';' :: s) =
        match pySplitChar ';' (m ++ ';' :: s) with
        | [] => [[c]]
        | l :: ls => (c :: l) :: ls := by
      rw [List.cons_append]
      simp [pySplitChar, hc]
    rw [hstep, ih hm]

theorem setPair_fresh :
    ∀ (ps : List (List Char × List Char)) (k v : List Char),
      k ∉ ps.map Prod.fst → setPair ps k v = ps ++ [(k, v)] := by
  intro ps
  induction ps with
  | nil => intro k v _; rfl
  | cons p rest ih =>
    intro k v hk
    simp only [List.map_cons, List.mem_cons] at hk
    push_neg at hk
    cases p with
    | mk k' v' =>
      have : k' ≠ k := fun he => hk.1 he.symm
      simp [setPair, this, ih k v hk.2]

theorem readProfilesLines_roundtrip :
    ∀ (ps acc : List (List Char × List Char)),
      (ps.map Prod.fst).Nodup →
      (∀ p ∈ ps, p.1 ∉ acc.map Prod.fst) →
      (∀ p ∈ ps, ';' ∉ p.1 ∧ ';' ∉ p.2 ∧
        (∀ c, p.1.head? = some c → pyIsSpace c = false) ∧
        (∀ c, p.2.getLast? = some c → pyIsSpace c = false)) →
      readProfilesLines (ps.map (fun p => p.1 ++ ';' :: (p.2 ++ ['\n']))) acc =
        some (acc ++ ps) := by
  intro ps
  induction ps with
  | nil => intro acc _ _ _; simp [readProfilesLines]
  | cons p rest ih =>
    intro acc hnd hfresh hok
    obtain ⟨hn1, hs1, hh1, hl1⟩ := hok p (List.mem_cons_self p rest)
    have hstrip : pyStrip (p.1 ++ ';' :: (p.2 ++ ['\n'])) = p.1 ++ ';' :: p.2 :=
      pyStrip_record p.1 p.2 hh1 hl1
    have hsplit : pySplitChar ';' (p.1 ++ ';' :: p.2) = [p.1, p.2] :=
      pySplitChar_record p.1 p.2 hn1 hs1
    have hset : setPair acc p.1 p.2 = acc ++ [(p.1, p.2)] :=
      setPair_fresh acc p.1 p.2 (hfresh p (List.mem_cons_self p rest))
    simp only [List.map_cons, readProfilesLines, hstrip, hsplit, hset]
    have hnd' : (rest.map Prod.fst).Nodup := by
      simp only [List.map_cons, List.nodup_cons] at hnd
      exact hnd.2
    have hhead : p.1 ∉ rest.map Prod.fst := by
      simp only [List.map_cons, List.nodup_cons] at hnd
      exact hnd.1
    have hfresh' : ∀ q ∈ rest, q.1 ∉ (acc ++ [(p.1, p.2)]).map Prod.fst := by
      intro q hq
      simp only [List.map_append, List.mem_append, List.map_cons, List.map_nil,
        List.mem_singleton]
      push_neg
      refine ⟨hfresh q (List.mem_cons_of_mem p hq), ?_⟩
      intro he
      exact hhead (he ▸ List.mem_map_of_mem Prod.fst hq)
    have := ih (acc ++ [(p.1, p.2)]) hnd' hfresh'
      (fun q hq => hok q (List.mem_cons_of_mem p hq))
    rw [this]
    simp

/-- C4 counterexample: the mapping `{" a": "b"}` has a unique name and no
`';'` or newline in its name or secret, yet writing it and reading it back
yields `{"a": "b"}` — `line.strip()` removes the name's leading space — so
the claim's round-trip fails as stated. -/
theorem profiles_roundtrip_cex :
    (([(" a".data, "b".data)].map Prod.fst).Nodup ∧
      ∀ p ∈ [(" a".data, "b".data)],
        ';' ∉ p.1 ∧ ';' ∉ p.2 ∧ '\n' ∉ p.1 ∧ '\n' ∉ p.2) ∧
    readProfiles (some (writeProfiles [(" a".data, "b".data)])) ≠
      some [(" a".data, "b".data)] := by
  decide

/-- C4 (amended): for every profile mapping with unique names in which no
name or secret contains `';'` or a newline, no name starts with a whitespace
character, and no secret ends with a whitespace character, writing with
`_write_profiles` and reading back with `_read_profiles` reproduces the
mapping exactly; and when the backing file is absent or unreadable
(`OSError` on `open`), `_read_profiles` returns the empty mapping. -/
theorem profiles_roundtrip (ps : List (List Char × List Char))
    (hnd : (ps.map Prod.fst).Nodup)
    (hok : ∀ p ∈ ps, ';' ∉ p.1 ∧ ';' ∉ p.2 ∧ '\n' ∉ p.1 ∧ '\n' ∉ p.2 ∧
      (p.1.head?.all fun c => !pyIsSpace c) = true ∧
      (p.2.getLast?.all fun c => !pyIsSpace c) = true) :
    readProfiles (some (writeProfiles ps)) = some ps ∧
    readProfiles none = some [] := by
  refine ⟨?_, rfl⟩
  have hlines : pyReadlines (writeProfiles ps) =
      ps.map (fun p => p.1 ++ ';' :: (p.2 ++ ['\n'])) :=
    pyReadlines_writeProfiles ps
      (fun p hp => ⟨((hok p hp).2.2.1), ((hok p hp).2.2.2.1)⟩)
  rw [show readProfiles (some (writeProfiles ps)) =
      readProfilesLines (pyReadlines (writeProfiles ps)) [] from rfl, hlines]
  have := readProfilesLines_roundtrip ps [] hnd (by intro p _; simp)
    (by
      intro p hp
      obtain ⟨h1, h2, _, _, h5, h6⟩ := hok p hp
      refine ⟨h1, h2, ?_, ?_⟩
      · intro c hc
        have := h5
        rw [hc] at this
        simpa using this
      · intro c hc
        have := h6
        rw [hc] at this
        simpa using this)
  rw [this]
  simp

/-- C4 witness: the two-profile mapping `{"Home": "pw1", "Work": "pw2"}`
satisfies the amended side conditions and round-trips exactly; a missing
file reads as the empty mapping. -/
theorem profiles_roundtrip_witness :
    readProfiles (some (writeProfiles
      [("Home".data, "pw1".data), ("Work".data, "pw2".data)])) =
      some [("Home".data, "pw1".data), ("Work".data, "pw2".data)] ∧
    readProfiles none = some [] :=
  profiles_roundtrip [("Home".data, "pw1".data), ("Work".data, "pw2".data)]
    (by decide) (by decide)

/-- C7: for every inbound datagram whose opcode field `(data[2] >> 3) & 15`
is nonzero, the parsed domain is the empty string, and the DNS server loop
sends nothing for that datagram: `response()` takes its packet-building
branch only under `if self.domain:`, so with an empty domain it raises
`UnboundLocalError` on the unset `packet`, the loop's `except` swallows it,
and `sendto` is never reached. -/
theorem nonstandard_opcode_silent (data : List Nat) (ip : List Char) (b2 : Nat)
    (h2 : getByte data 2 = some b2) (hop : (b2 >>> 3) &&& 15 ≠ 0) :
    dnsDomain data = some [] ∧ dnsServerStep data ip = none := by
  have hdom : dnsDomain data = some [] := by
    simp [dnsDomain, h2, hop]
  refine ⟨hdom, ?_⟩
  simp [dnsServerStep, dnsResponse, hdom]

/-- C7 witness: the 3-octet datagram `[0, 1, 40]` has opcode 5 and produces
an empty domain and no reply on the wire. -/
theorem nonstandard_opcode_silent_witness :
    dnsDomain [0, 1, 40] = some [] ∧
    dnsServerStep [0, 1, 40] "10.0.0.1".data = none :=
  nonstandard_opcode_silent [0, 1, 40] "10.0.0.1".data 40 rfl (by decide)

/-- C6: for every `POST /configure` request whose parsed headers contain no
`content-length` key, the handler writes the 400 response, closes the
connection, and reads zero body octets from the stream. -/
theorem missing_content_length_400 (rl : List Char) (hls : List (List Char))
    (body : List Char) (attempt : List Char → List Char → Bool)
    (file : Option (List Char)) (hs : List (List Char × List Char))
    (h1 : parseHeaders hls = some hs)
    (h2 : pyStartsWith rl "POST /configure".data = true)
    (h3 : assocLookup hs "content-length".data = none) :
    handleHttp rl hls body attempt file =
      ⟨[HttpStatus.badRequestNoLength], 0, [], file, true, false, false⟩ := by
  simp [handleHttp, h1, h2, h3]

/-- C6 witness: a `POST /configure` request carrying only a `Host` header is
answered 400 with the connection closed and no body octet consumed, even
though ten body octets were available on the stream. -/
theorem missing_content_length_400_witness :
    handleHttp "POST /configure HTTP/1.1\r\n".data ["Host: portal\r\n".data]
      "0123456789".data (fun _ _ => true) none =
      ⟨[HttpStatus.badRequestNoLength], 0, [], none, true, false, false⟩ :=
  missing_content_length_400 "POST /configure HTTP/1.1\r\n".data
    ["Host: portal\r\n".data] "0123456789".data (fun _ _ => true) none
    [("host".data, "portal".data)] (by decide) (by decide) (by decide)

/-- C5: evaluation of the handler at the claim's own input.  The header loop
has already consumed the blank line, so `readexactly(2)` (commented
`# Skip \r\n`) consumes the first two body octets `"id"`; the remaining
stream is `"=MyNet&password=secret123"`, in which
`id=([^&]*)&password=(.*)` finds no match, so the handler answers
400 `Invalid data!` and never attempts a connection — contradicting the
claimed extraction of `("MyNet", "secret123")`. -/
theorem configure_post_skips_two_body_octets :
    handleHttp "POST /configure HTTP/1.1\r\n".data
      ["Content-Length: 27\r\n".data] "id=MyNet&password=secret123".data
      (fun _ _ => true) none =
      ⟨[HttpStatus.badRequestInvalid], 27, [], none, true, false, false⟩ := by
  decide

/-- C8 counterexample: a request whose header line is `Host:x` — a colon
with no following space — makes `header.split(': ', 1)` raise an uncaught
`ValueError` that terminates the handler: no response is written and the
connection is not closed, contradicting the claim that failures while
parsing header lines never terminate the handler. -/
theorem handler_header_crash_cex :
    handleHttp "GET / HTTP/1.0\r\n".data ["Host:x\r\n".data] []
      (fun _ _ => false) none = ⟨[], 0, [], none, false, false, true⟩ := by
  decide

theorem stripLit_self : ∀ p s : List Char, stripLit p (p ++ s) = some s := by
  intro p
  induction p with
  | nil => intro s; rfl
  | cons c ps ih =>
    intro s
    simp [stripLit, ih]

theorem takeWhile_until_amp :
    ∀ X t : List Char, '&' ∉ X →
      (X ++ '&' :: t).takeWhile (fun c => c ≠ '&') = X := by
  intro X
  induction X with
  | nil => intro t _; simp [List.takeWhile_cons]
  | cons c m ih =>
    intro t hna
    have hc : c ≠ '&' := fun he => hna (he ▸ List.mem_cons_self c m)
    have hm : '&' ∉ m := fun hmm => hna (List.mem_cons_of_mem c hmm)
    have ih' := ih t hm
    simp only [decide_not] at ih'
    simp only [List.cons_append, List.takeWhile_cons]
    simp [hc, ih']

theorem dropWhile_until_amp :
    ∀ X t : List Char, '&' ∉ X →
      (X ++ '&' :: t).dropWhile (fun c => c ≠ '&') = '&' :: t := by
  intro X
  induction X with
  | nil => intro t _; simp [List.dropWhile_cons]
  | cons c m ih =>
    intro t hna
    have hc : c ≠ '&' := fun he => hna (he ▸ List.mem_cons_self c m)
    have hm : '&' ∉ m := fun hmm => hna (List.mem_cons_of_mem c hmm)
    have ih' := ih t hm
    simp only [decide_not] at ih'
    simp only [List.cons_append, List.dropWhile_cons]
    simp [hc, ih']

theorem matchIdPw_at (X Y : List Char) (hX : '&' ∉ X) :
    matchIdPw ('i' :: 'd' :: '=' :: (X ++ '&' :: ("password=".data ++ Y))) =
      some (X, Y) := by
  have h1 : stripLit ['i', 'd', '=']
      ('i' :: 'd' :: '=' :: (X ++ '&' :: ("password=".data ++ Y))) =
      some (X ++ '&' :: ("password=".data ++ Y)) :=
    stripLit_self ['i', 'd', '='] (X ++ '&' :: ("password=".data ++ Y))
  have h2 : stripLit ('&' :: "password=".data) ('&' :: ("password=".data ++ Y)) =
      some Y :=
    stripLit_self ('&' :: "password=".data) Y
  simp only [matchIdPw, h1, dropWhile_until_amp X _ hX, h2,
    takeWhile_until_amp X _ hX]

theorem searchIdPw_miss (c : Char) (rest : List Char)
    (h : matchIdPw (c :: rest) = none) :
    searchIdPw (c :: rest) = searchIdPw rest := by
  simp only [searchIdPw, h]

theorem searchIdPw_hit (c : Char) (rest : List Char) (r : List Char × List Char)
    (h : matchIdPw (c :: rest) = some r) :
    searchIdPw (c :: rest) = some r := by
  simp only [searchIdPw, h]

/-- C9: for every `POST /configure` body of the shape `ssid=X&password=Y`
with no `'&'` in `X` — the shape submitted by the portal's own form, whose
select field is named `ssid`, not `id` — the extraction pattern
`id=([^&]*)&password=(.*)` still matches (its leftmost match starts inside
`ssid=`, whose last three characters read `id=`) and yields exactly
`(X, Y)`. -/
theorem form_body_extraction (X Y : List Char) (hX : '&' ∉ X) :
    searchIdPw ("ssid=".data ++ X ++ "&password=".data ++ Y) = some (X, Y) := by
  have hbody : "ssid=".data ++ X ++ "&password=".data ++ Y =
      's' :: 's' :: 'i' :: 'd' :: '=' :: (X ++ '&' :: ("password=".data ++ Y)) := by
    simp
  rw [hbody]
  have m1 : matchIdPw ('s' :: 's' :: 'i' :: 'd' :: '=' ::
      (X ++ '&' :: ("password=".data ++ Y))) = none := rfl
  have m2 : matchIdPw ('s' :: 'i' :: 'd' :: '=' ::
      (X ++ '&' :: ("password=".data ++ Y))) = none := rfl
  rw [searchIdPw_miss _ _ m1, searchIdPw_miss _ _ m2]
  exact searchIdPw_hit _ _ _ (matchIdPw_at X Y hX)

/-- C9 witness: the form body `ssid=MyNet&password=secret123` yields exactly
`("MyNet", "secret123")`. -/
theorem form_body_extraction_witness :
    searchIdPw ("ssid=".data ++ "MyNet".data ++ "&password=".data ++
      "secret123".data) = some ("MyNet".data, "secret123".data) :=
  form_body_extraction "MyNet".data "secret123".data (by decide)

/-- C8 (amended): once the request line and header lines have parsed (no
`ValueError` from a `': '`-less header) and, for a `POST /configure`, the
`content-length` value converts with `int()` (both conversions sit outside
the `try` and their failures escape the handler uncaught), the handler never
crashes: every branch — including any failure raised inside the guarded
body-processing block, such as `readexactly(2)` hitting end-of-stream —
writes exactly one response and still closes the connection, and the guarded
failures are reported as 500. -/
theorem handler_guarded_failures (rl : List Char) (hls : List (List Char))
    (body : List Char) (attempt : List Char → List Char → Bool)
    (file : Option (List Char)) (hs : List (List Char × List Char))
    (h1 : parseHeaders hls = some hs)
    (h2 : ((assocLookup hs "content-length".data).all
      fun v => (pyInt v).isSome) = true) :
    ((handleHttp rl hls body attempt file).crashed = false ∧
     (handleHttp rl hls body attempt file).closed = true ∧
     (handleHttp rl hls body attempt file).responses.length = 1) ∧
    (∀ v n, assocLookup hs "content-length".data = some v → pyInt v = some n →
      pyStartsWith rl "POST /configure".data = true → body.length < 2 →
      (handleHttp rl hls body attempt file).responses =
        [HttpStatus.internalError]) := by
  constructor
  · simp only [handleHttp, h1]
    by_cases hpost : pyStartsWith rl "POST /configure".data = true
    · simp only [hpost, if_true]
      rcases hcl : assocLookup hs "content-length".data with _ | v
      · simp [hcl]
      · have hv : (pyInt v).isSome = true := by
          rw [hcl] at h2
          simpa using h2
        rcases hpi : pyInt v with _ | n
        · rw [hpi] at hv
          simp at hv
        · by_cases hblen : body.length < 2
          · simp [hcl, hpi, hblen]
          · simp only [hcl, hpi, if_neg hblen]
            rcases hsp : searchIdPw (streamRead n (body.drop 2)) with _ | ⟨ssid, pw⟩
            · simp [hsp]
            · by_cases hat : attempt ssid pw = true
              · rcases hrp : readProfiles file with _ | ps
                · simp [hsp, hat, hrp]
                · simp [hsp, hat, hrp]
              · simp [hsp, hat]
    · simp only [hpost, if_false]
      by_cases hsucc : pyStartsWith rl "GET /success".data = true
      · simp [hpost, hsucc]
      · simp [hpost, hsucc]
  · intro v n hcl hpi hpost hblen
    simp [handleHttp, h1, hcl, hpi, hpost, hblen]

/-- C8 witness: a `POST /configure` with `Content-Length: 5` whose stream
holds a single octet makes `readexactly(2)` fail inside the `try`; the
handler does not crash, closes the connection, and reports the failure as a
single 500 response. -/
theorem handler_guarded_failures_witness :
    ((handleHttp "POST /configure HTTP/1.1\r\n".data
        ["Content-Length: 5\r\n".data] "x".data (fun _ _ => false)
        none).crashed = false ∧
      (handleHttp "POST /configure HTTP/1.1\r\n".data
        ["Content-Length: 5\r\n".data] "x".data (fun _ _ => false)
        none).closed = true ∧
      (handleHttp "POST /configure HTTP/1.1\r\n".data
        ["Content-Length: 5\r\n".data] "x".data (fun _ _ => false)
        none).responses.length = 1) ∧
    (handleHttp "POST /configure HTTP/1.1\r\n".data
      ["Content-Length: 5\r\n".data] "x".data (fun _ _ => false)
      none).responses = [HttpStatus.internalError] := by
  have h := handler_guarded_failures "POST /configure HTTP/1.1\r\n".data
    ["Content-Length: 5\r\n".data] "x".data (fun _ _ => false) none
    [("content-length".data, "5".data)] (by decide) (by decide)
  exact ⟨h.1, h.2 "5".data 5 (by decide) (by decide) (by decide) (by decide)⟩

theorem getByte_lt (data : List Nat) (i b : Nat) (h : getByte data i = some b) :
    i < data.length := by
  unfold getByte at h
  exact (List.getElem?_eq_some.mp h).1

theorem dnsDomain_nonempty_length (data d : List Nat)
    (hd : dnsDomain data = some d) (hne : d ≠ []) : 13 ≤ data.length := by
  unfold dnsDomain at hd
  rcases hb : getByte data 2 with _ | b2
  · rw [hb] at hd
    simp at hd
  · rw [hb] at hd
    simp only [] at hd
    by_cases hop : (b2 >>> 3) &&& 15 = 0
    · rw [if_pos hop] at hd
      simp only [labelsAux] at hd
      rcases h12 : getByte data 12 with _ | lon
      · rw [h12] at hd
        simp at hd
      · have := getByte_lt data 12 lon h12
        omega
    · rw [if_neg hop] at hd
      have hdn : d = [] := by
        injection hd with h
        exact h.symm
      exact absurd hdn hne

/-- C1: for every inbound datagram parsing as a standard query (opcode 0)
with a non-empty domain, `DNSQuery.response(ip)` yields a packet whose first
2 octets echo the query's transaction id (input octets 0-1), whose
question-count field (octets 4-5) and answer-count field (octets 6-7) both
equal the input's question-count octets 4-5, whose octets from offset 12
onward start with the input's question section (input octets 12..end copied
verbatim), and whose last 4 octets are exactly the address's 4 octets. -/
theorem dns_response_echo (data : List Nat) (ip : List Char) (d octets : List Nat)
    (hd : dnsDomain data = some d) (hne : d ≠ [])
    (hip : parseIp ip = some octets) (hlen4 : octets.length = 4) :
    ∃ r, dnsResponse data ip = some r ∧
      r.take 2 = data.take 2 ∧
      (r.drop 4).take 2 = (data.drop 4).take 2 ∧
      (r.drop 6).take 2 = (data.drop 4).take 2 ∧
      (r.drop 12).take (data.length - 12) = data.drop 12 ∧
      r.drop (r.length - 4) = octets := by
  have hlen : 13 ≤ data.length := dnsDomain_nonempty_length data d hd hne
  obtain ⟨x, xs, rfl⟩ : ∃ x xs, d = x :: xs := by
    cases d with
    | nil => exact absurd rfl hne
    | cons x xs => exact ⟨x, xs, rfl⟩
  have hQ : pySlice data 4 6 = (data.drop 4).take 2 := by
    unfold pySlice
    rw [List.drop_take]
  have hTlen : (data.take 2).length = 2 := by
    rw [List.length_take]
    omega
  have hQlen : ((data.drop 4).take 2).length = 2 := by
    rw [List.length_take, List.length_drop]
    omega
  have hDlen : (data.drop 12).length = data.length - 12 := by
    rw [List.length_drop]
  refine ⟨data.take 2 ++ [129, 128] ++ (data.drop 4).take 2 ++
      (data.drop 4).take 2 ++ [0, 0, 0, 0] ++ data.drop 12 ++ [192, 12] ++
      [0, 1, 0, 1, 0, 0, 0, 60, 0, 4] ++ octets, ?_, ?_, ?_, ?_, ?_, ?_⟩
  · simp only [dnsResponse, hd, hip, hQ]
  · simp only [List.append_assoc]
    exact List.take_left' hTlen
  · simp only [List.append_assoc]
    rw [← List.append_assoc]
    rw [List.drop_left' (by simp [hTlen] : (data.take 2 ++ [129, 128]).length = 4)]
    exact List.take_left' hQlen
  · simp only [List.append_assoc]
    rw [← List.append_assoc, ← List.append_assoc]
    rw [List.drop_left' (by simp [hTlen, hQlen] :
      ((data.take 2 ++ [129, 128]) ++ (data.drop 4).take 2).length = 6)]
    exact List.take_left' hQlen
  · simp only [List.append_assoc]
    rw [← List.append_assoc, ← List.append_assoc, ← List.append_assoc,
      ← List.append_assoc]
    rw [List.drop_left' (by simp [hTlen, hQlen] :
      ((((data.take 2 ++ [129, 128]) ++ (data.drop 4).take 2) ++
        (data.drop 4).take 2) ++ [0, 0, 0, 0]).length = 12)]
    exact List.take_left' hDlen
  · rw [List.length_append, hlen4, Nat.add_sub_cancel]
    exact List.drop_left' rfl

/-- C1 witness: a standard query for `captive.example` with transaction id
`0x1234` and one question; the response echoes the id and the counts, copies
the question section, and ends in the octets `10, 0, 0, 1` of
`"10.0.0.1"`. -/
theorem dns_response_echo_witness :
    ∃ r, dnsResponse [18, 52, 1, 0, 0, 1, 0, 0, 0, 0, 0, 0,
        7, 99, 97, 112, 116, 105, 118, 101,
        7, 101, 120, 97, 109, 112, 108, 101, 0, 0, 1, 0, 1]
        "10.0.0.1".data = some r ∧
      r.take 2 = List.take 2 [18, 52, 1, 0, 0, 1, 0, 0, 0, 0, 0, 0,
        7, 99, 97, 112, 116, 105, 118, 101,
        7, 101, 120, 97, 109, 112, 108, 101, 0, 0, 1, 0, 1] ∧
      (r.drop 4).take 2 = (List.drop 4 [18, 52, 1, 0, 0, 1, 0, 0, 0, 0, 0, 0,
        7, 99, 97, 112, 116, 105, 118, 101,
        7, 101, 120, 97, 109, 112, 108, 101, 0, 0, 1, 0, 1]).take 2 ∧
      (r.drop 6).take 2 = (List.drop 4 [18, 52, 1, 0, 0, 1, 0, 0, 0, 0, 0, 0,
        7, 99, 97, 112, 116, 105, 118, 101,
        7, 101, 120, 97, 109, 112, 108, 101, 0, 0, 1, 0, 1]).take 2 ∧
      (r.drop 12).take (List.length [18, 52, 1, 0, 0, 1, 0, 0, 0, 0, 0, 0,
        7, 99, 97, 112, 116, 105, 118, 101,
        7, 101, 120, 97, 109, 112, 108, 101, 0, 0, 1, 0, 1] - 12) =
        List.drop 12 [18, 52, 1, 0, 0, 1, 0, 0, 0, 0, 0, 0,
          7, 99, 97, 112, 116, 105, 118, 101,
          7, 101, 120, 97, 109, 112, 108, 101, 0, 0, 1, 0, 1] ∧
      r.drop (r.length - 4) = [10, 0, 0, 1] :=
  dns_response_echo [18, 52, 1, 0, 0, 1, 0, 0, 0, 0, 0, 0,
      7, 99, 97, 112, 116, 105, 118, 101,
      7, 101, 120, 97, 109, 112, 108, 101, 0, 0, 1, 0, 1]
    "10.0.0.1".data
    [99, 97, 112, 116, 105, 118, 101, 46, 101, 120, 97, 109, 112, 108, 101, 46]
    [10, 0, 0, 1] (by decide) (by decide) (by decide) (by decide)

